import Mathlib

/-!
Shallow embedding of the `parex` crate (a parallel match-and-aggregate
engine) covering `src/entry.rs`, `src/error.rs`, `src/engine.rs`,
`src/results.rs`, `src/builder.rs` and `src/traits.rs`.

Modelling conventions:
* Rust `PathBuf` and `String` become Lean `String`.
* `usize` counters become `Nat` (they only ever increase by 1 from 0, so
  overflow is unreachable in any execution the claims quantify over).
* The `ignore` crate's parallel walker is external to the repository; the
  stream of items it hands to the engine callback is a parameter
  (`List (Except IgnoreError DirEntry)`), and its dispatch contract
  ("a Quit verdict stops dispatch of new work; otherwise every item is
  delivered") is captured by the `ConcRun` execution model below.
* Wall-clock time (`Instant`, `Duration`) and the `f64` rate computation of
  `ScanStats::compute` are not modelled; the embedded `Results` keeps the
  exact integer fields (`matches`, `paths`, `files`, `dirs`, `errors`).
-/

/-- entry.rs `EntryKind`. -/
inductive EntryKind
  | File
  | Dir
  | Symlink
  | Other
deriving DecidableEq, Repr

/-- entry.rs `Entry`. The `metadata` field (`Option<std::fs::Metadata>`) is
never populated by the engine (it always constructs entries with
`metadata: None`); its payload is irrelevant to every claim, so it is
embedded as `Option Unit`. -/
structure Entry where
  path : String
  name : String
  kind : EntryKind
  depth : Nat
  metadata : Option Unit
deriving DecidableEq, Repr

/-- std::io::ErrorKind, reduced to the only case the engine inspects
(`PermissionDenied`) plus a tag for everything else. -/
inductive IoErrorKind
  | PermissionDenied
  | OtherKind (tag : String)
deriving DecidableEq, Repr

/-- std::io::Error: its kind plus a display message. -/
structure IoError where
  kind : IoErrorKind
  msg : String
deriving DecidableEq, Repr

/-- ignore::Error (external crate), reduced to the variants
`engine.rs::map_ignore_error` distinguishes: `WithPath`, `Loop`, `Io`,
and a catch-all `Other` for the remaining variants, which
`map_ignore_error` treats uniformly. -/
inductive IgnoreError
  | WithPath (path : String) (err : IgnoreError)
  | Loop (ancestorPath childPath : String)
  | Io (ioErr : IoError)
  | Other (msg : String)
deriving DecidableEq, Repr

/-- Display rendering of ignore::Error (external crate). The engine only
stores these strings inside `ParexError.Source`; no claim depends on the
exact text. -/
def IgnoreError.display : IgnoreError → String
  | .WithPath path err => path ++ ": " ++ err.display
  | .Loop a c => "File system loop found: " ++ c ++ " points to an ancestor " ++ a
  | .Io e => e.msg
  | .Other m => m

/-- error.rs `ParexError`. The `Source` and `Matcher` variants box a
`dyn Error` in Rust; only its display string ever matters to the engine,
so they carry a `String` here. `Io` carries the path and the io error. -/
inductive ParexError
  | PermissionDenied (path : String)
  | NotFound (path : String)
  | InvalidSource (path : String)
  | SymlinkLoop (path : String)
  | InvalidPattern (detail : String)
  | InvalidThreadCount (n : Nat)
  | ThreadPool (detail : String)
  | Io (path : String) (source : IoError)
  | Source (detail : String)
  | Matcher (detail : String)
deriving DecidableEq, Repr

/-- error.rs `ParexError::is_recoverable`: exactly
`{PermissionDenied, NotFound, SymlinkLoop, Io}`. -/
def ParexError.is_recoverable : ParexError → Bool
  | .PermissionDenied _ => true
  | .NotFound _ => true
  | .SymlinkLoop _ => true
  | .Io _ _ => true
  | _ => false

/-- error.rs `ParexError::is_fatal` — the negation of `is_recoverable`. -/
def ParexError.is_fatal (e : ParexError) : Bool :=
  !e.is_recoverable

/-- error.rs `ParexError::path`. -/
def ParexError.path : ParexError → Option String
  | .PermissionDenied p => some p
  | .NotFound p => some p
  | .InvalidSource p => some p
  | .SymlinkLoop p => some p
  | .Io p _ => some p
  | _ => none

/-- engine.rs `map_ignore_error`. -/
def map_ignore_error : IgnoreError → ParexError
  | .WithPath path err =>
      match err with
      | .Io ioErr =>
          if ioErr.kind = .PermissionDenied then ParexError.PermissionDenied path
          else ParexError.Io path ioErr
      | other => ParexError.Source other.display
  | .Loop _ child => ParexError.SymlinkLoop child
  | .Io ioErr => ParexError.Io "" ioErr
  | other => ParexError.Source other.display

/-- ignore::WalkState (external crate): the verdict each callback
invocation returns to the parallel walker. The engine never uses `Skip`. -/
inductive WalkState
  | Continue
  | Quit
deriving DecidableEq, Repr

/-- std::fs::FileType, reduced to the three predicates the engine calls. -/
structure FileType where
  isDir : Bool
  isFile : Bool
  isSymlink : Bool
deriving DecidableEq, Repr

/-- ignore::DirEntry (external crate): the fields the engine callback
reads — `path()`, `file_name()`, `file_type()`, `depth()`. -/
structure DirEntry where
  path : String
  fileName : String
  fileType : Option FileType
  depth : Nat
deriving DecidableEq, Repr

/-- engine.rs `WalkConfig`. -/
structure WalkConfig where
  threads : Nat
  max_depth : Option Nat
  limit : Option Nat
deriving DecidableEq, Repr

/-- engine.rs `EngineOptions`. The `Arc<dyn Matcher>` becomes the
`is_match` function itself. -/
structure EngineOptions where
  config : WalkConfig
  matcher : Entry → Bool
  collect_paths : Bool
  collect_errors : Bool

/-- The shared aggregation state of engine.rs `run` (the atomics
`matches`/`files`/`dirs` and the mutex-guarded `paths`/`errors`
vectors), flattened into one record. -/
structure EngineState where
  match_count : Nat
  files : Nat
  dirs : Nat
  paths : List String
  errors : List ParexError
deriving DecidableEq, Repr

/-- The fresh state created at the start of engine.rs `run`. -/
def initState : EngineState :=
  { match_count := 0, files := 0, dirs := 0, paths := [], errors := [] }

/-- engine.rs lines 106-110: tally the entry into the `dirs` or `files`
counter by its file type (`is_dir` checked first, then `is_file`;
symlinks/other are not tallied). -/
def tally (s : EngineState) (ft : FileType) : EngineState :=
  if ft.isDir then { s with dirs := s.dirs + 1 }
  else if ft.isFile then { s with files := s.files + 1 }
  else s

/-- engine.rs lines 118-126: map the file type to a parex `EntryKind`. -/
def entryKindOf (ft : FileType) : EntryKind :=
  if ft.isDir then .Dir
  else if ft.isFile then .File
  else if ft.isSymlink then .Symlink
  else .Other

/-- engine.rs lines 128-139: build the parex `Entry` handed to the matcher
(`metadata: None`). -/
def mkEntry (d : DirEntry) (ft : FileType) : Entry :=
  { path := d.path, name := d.fileName, kind := entryKindOf ft
  , depth := d.depth, metadata := none }

/-- The early guard of engine.rs lines 152-156: with a limit configured,
fires when the post-increment count strictly exceeds it. -/
def overLimit (limit : Option Nat) (mc : Nat) : Bool :=
  match limit with
  | some lim => decide (mc > lim)
  | none => false

/-- The late (at-limit) guard of engine.rs lines 165-169: with a limit
configured, fires when the post-increment count meets or exceeds it. -/
def atLimit (limit : Option Nat) (mc : Nat) : Bool :=
  match limit with
  | some lim => decide (mc ≥ lim)
  | none => false

/-- engine.rs lines 158-162: append the matched path when collection is
enabled. -/
def pushPath (collect : Bool) (s : EngineState) (p : String) : EngineState :=
  if collect then { s with paths := s.paths ++ [p] } else s

/-- engine.rs lines 146-171: the two-guard limit protocol run by the
worker that just found a predicate match. `fetch_add(1) + 1` is the
post-increment value `mc`; the early guard quits before the path is
recorded, the late guard quits after. -/
def matchStep (opts : EngineOptions) (s : EngineState) (p : String) :
    EngineState × WalkState :=
  let mc := s.match_count + 1
  let s1 := { s with match_count := mc }
  if overLimit opts.config.limit mc then (s1, .Quit)
  else
    let s2 := pushPath opts.collect_paths s1 p
    if atLimit opts.config.limit mc then (s2, .Quit) else (s2, .Continue)

/-- engine.rs lines 85-172: one invocation of the walker callback on one
item (`Result<DirEntry, ignore::Error>`), returning the updated shared
state and the `WalkState` verdict. Mirrors the source order: error
handling, file-type check, dir/file tally, root (depth 0) skip, matcher,
then the two-guard protocol. -/
def step (opts : EngineOptions) (s : EngineState) :
    Except IgnoreError DirEntry → EngineState × WalkState
  | .error e =>
      ( if opts.collect_errors then
          { s with errors := s.errors ++ [map_ignore_error e] }
        else s
      , .Continue)
  | .ok d =>
      match d.fileType with
      | none => (s, .Continue)
      | some ft =>
          let s1 := tally s ft
          if d.depth = 0 then (s1, .Continue)
          else
            let pe := mkEntry d ft
            if !(opts.matcher pe) then (s1, .Continue)
            else matchStep opts s1 pe.path

/-- The single-consumer (one worker) instance of the parallel walk: items
are delivered in order and dispatch stops right after a `Quit` verdict. -/
def runItems (opts : EngineOptions) :
    EngineState → List (Except IgnoreError DirEntry) → EngineState
  | s, [] => s
  | s, it :: rest =>
      match step opts s it with
      | (s1, .Continue) => runItems opts s1 rest
      | (s1, .Quit) => s1

/-- engine.rs lines 183-187: the finalization clamp — with a limit
configured the raw counter is clamped to `min(raw, limit)`, otherwise it
is reported as is. -/
def clampMatches (limit : Option Nat) (raw : Nat) : Nat :=
  match limit with
  | some lim => min raw lim
  | none => raw

/-- results.rs `Results`, restricted to its exact integer/list fields.
`stats.duration` and `stats.entries_per_sec` are wall-clock and `f64`
quantities and are not embedded; `stats.files` and `stats.dirs` are kept
(`ScanStats::compute` copies them through unchanged). -/
structure Results where
  match_count : Nat
  paths : List String
  files : Nat
  dirs : Nat
  errors : List ParexError
deriving DecidableEq, Repr

/-- engine.rs lines 175-194: the result finalizer. It drains the shared
state, clamps `matches` to the limit, and passes `paths` and `errors`
through untouched (no truncation). -/
def finalize (opts : EngineOptions) (s : EngineState) : Results :=
  { match_count := clampMatches opts.config.limit s.match_count
  , paths := s.paths
  , files := s.files
  , dirs := s.dirs
  , errors := s.errors }

/-- engine.rs `run`, in the single-worker shape: fold the callback over
the walker's item stream (stopping dispatch on `Quit`), then finalize. -/
def engineRun (opts : EngineOptions)
    (items : List (Except IgnoreError DirEntry)) : Results :=
  finalize opts (runItems opts initState items)

-- ---------------------------------------------------------------------------
-- Concurrent (push-shape) execution model
-- ---------------------------------------------------------------------------

/-- Whether one item drives the callback into the match branch (an `Ok`
entry with a known file type, depth ≠ 0, accepted by the matcher) — i.e.
whether processing it increments the shared `matches` counter. -/
def isMatchEvent (opts : EngineOptions) : Except IgnoreError DirEntry → Bool
  | .error _ => false
  | .ok d =>
      match d.fileType with
      | none => false
      | some ft => decide (d.depth ≠ 0) && opts.matcher (mkEntry d ft)

/-- Fold the callback's state effect over a list of processed items
(ignoring verdicts): the shared state after those callback invocations,
listed in the serialization order of the atomic `matches` counter. -/
def stepsState (opts : EngineOptions)
    (l : List (Except IgnoreError DirEntry)) : EngineState :=
  l.foldl (fun s it => (step opts s it).1) initState

/-- Whether any of the callback invocations in `l` (state threaded in
counter-serialization order from `s`) returned `Quit`. -/
def anyQuit (opts : EngineOptions) :
    EngineState → List (Except IgnoreError DirEntry) → Bool
  | _, [] => false
  | s, it :: rest =>
      match step opts s it with
      | (s1, v) => decide (v = .Quit) || anyQuit opts s1 rest

/-- One concurrent execution of engine.rs `run` over the walker's item
stream `items`, at any thread count. Each callback's writes are atomic
counter increments and mutex-guarded pushes, and its verdict depends only
on its own post-increment counter value, so the reachable final states
are exactly those of `stepsState opts procd` where `procd` lists the
processed items in the serialization order of the `matches` counter.

* `sub`: every processed item comes from the stream (with multiplicity);
* `term`: the walker's dispatch contract (ignore crate, spec §4.4/§6) —
  if no invocation ever returned `Quit`, every item of the stream was
  dispatched and processed. -/
structure ConcRun (opts : EngineOptions)
    (items : List (Except IgnoreError DirEntry)) where
  procd : List (Except IgnoreError DirEntry)
  sub : List.Subperm procd items
  term : anyQuit opts initState procd = false → procd.Perm items

-- ---------------------------------------------------------------------------
-- Builder (builder.rs)
-- ---------------------------------------------------------------------------

/-- builder.rs `SubstringMatcher` — the pattern stored by `matching()`,
already lowercased. -/
structure SubstringMatcher where
  pattern : String
deriving DecidableEq, Repr

/-- Rust `str::contains` specialised to string needles: substring
containment. -/
def strContains (hay needle : String) : Bool :=
  decide (needle.toList <:+: hay.toList)

/-- builder.rs `impl Matcher for SubstringMatcher`:
`entry.name.to_lowercase().contains(&self.pattern)`. Rust's
`to_lowercase` is modelled by `String.toLower`. -/
def SubstringMatcher.is_match (m : SubstringMatcher) (e : Entry) : Bool :=
  strContains e.name.toLower m.pattern

/-- builder.rs `impl Matcher for AllMatcher`: matches every entry. -/
def AllMatcher.is_match (_e : Entry) : Bool :=
  true

/-- traits.rs `Source`: `walk` yields an iterator of
`Result<Entry, ParexError>` for a given `WalkConfig`, modelled as a
list. -/
structure SourceM where
  walk : WalkConfig → List (Except ParexError Entry)

/-- builder.rs `SearchBuilder`. The boxed `dyn Matcher` becomes its
`is_match` function. -/
structure SearchBuilder where
  source : Option SourceM
  matcher : Option (Entry → Bool)
  limit : Option Nat
  threads : Nat
  max_depth : Option Nat
  collect_paths : Bool
  collect_errors : Bool

/-- builder.rs `impl Default for SearchBuilder`; `num_cpus()` is an
environment value, taken as a parameter. -/
def SearchBuilder.mkDefault (numCpus : Nat) : SearchBuilder :=
  { source := none, matcher := none, limit := none, threads := numCpus
  , max_depth := none, collect_paths := false, collect_errors := false }

/-- builder.rs `SearchBuilder::matching`: installs a `SubstringMatcher`
whose pattern is the argument lowercased at construction time. -/
def SearchBuilder.matching (b : SearchBuilder) (pattern : String) :
    SearchBuilder :=
  { b with matcher := some (SubstringMatcher.is_match ⟨pattern.toLower⟩) }

/-- builder.rs `SearchBuilder::with_matcher`. -/
def SearchBuilder.with_matcher (b : SearchBuilder) (m : Entry → Bool) :
    SearchBuilder :=
  { b with matcher := some m }

/-- builder.rs `SearchBuilder::limit`. -/
def SearchBuilder.setLimit (b : SearchBuilder) (n : Nat) : SearchBuilder :=
  { b with limit := some n }

/-- builder.rs `SearchBuilder::threads`. -/
def SearchBuilder.setThreads (b : SearchBuilder) (n : Nat) : SearchBuilder :=
  { b with threads := n }

/-- builder.rs `SearchBuilder::collect_paths`. -/
def SearchBuilder.setCollectPaths (b : SearchBuilder) (yes : Bool) :
    SearchBuilder :=
  { b with collect_paths := yes }

/-- builder.rs `SearchBuilder::collect_errors`. -/
def SearchBuilder.setCollectErrors (b : SearchBuilder) (yes : Bool) :
    SearchBuilder :=
  { b with collect_errors := yes }

/-- builder.rs `source_root` (lines 227-236): probe the source with
`WalkConfig { threads: 1, max_depth: Some(0), limit: Some(1) }`, take the
first yielded item's entry path, falling back to "." when the iterator
yields nothing.

As written the source does not type-check: `walk`'s items are
`Result<Entry, ParexError>` (traits.rs line 56) but `.map(|e| e.path)`
(builder.rs line 234) projects a field of `Entry`. The evident intent —
the first yielded entry's path — is modelled here; a first item that is
an `Err` (a case the source cannot express at all) falls back to ".". -/
def source_root (src : SourceM) : String :=
  match (src.walk { threads := 1, max_depth := some 0, limit := some 1 }).head? with
  | some (.ok e) => e.path
  | some (.error _) => "."
  | none => "."

/-- The matcher `SearchBuilder::run` hands to the engine: the configured
one, or `AllMatcher` when none is set (builder.rs lines 153-157). -/
def resolveMatcher (b : SearchBuilder) : Entry → Bool :=
  match b.matcher with
  | some m => m
  | none => AllMatcher.is_match

/-- builder.rs `SearchBuilder::run` (lines 148-182): fail with
`InvalidSource` when no source is configured; otherwise resolve the
matcher, extract the root via `source_root`, and run the engine over the
external walker's item stream for that root. `fs` stands for the
filesystem as seen by the ignore walker: the items it yields for a given
root (the walker also receives `threads`/`max_depth`, which shape that
stream; they are threaded through `EngineOptions` unchanged). -/
def SearchBuilder.run (b : SearchBuilder)
    (fs : String → List (Except IgnoreError DirEntry)) :
    Except ParexError Results :=
  match b.source with
  | none => .error (.InvalidSource "no source provided")
  | some src =>
      let root := source_root src
      .ok (engineRun
        { config := { threads := b.threads, max_depth := b.max_depth
                    , limit := b.limit }
        , matcher := resolveMatcher b
        , collect_paths := b.collect_paths
        , collect_errors := b.collect_errors }
        (fs root))

-- ---------------------------------------------------------------------------
-- Concrete fixtures (used by witnesses and counterexamples)
-- ---------------------------------------------------------------------------

/-- The file-type value of a regular file. -/
def ftFile : FileType := { isDir := false, isFile := true, isSymlink := false }

/-- The file-type value of a directory. -/
def ftDir : FileType := { isDir := true, isFile := false, isSymlink := false }

/-- A depth-1 regular file whose name contains "invoice". -/
def fileA : DirEntry :=
  { path := "/tmp/t/invoice_jan.txt", fileName := "invoice_jan.txt"
  , fileType := some ftFile, depth := 1 }

/-- A second depth-1 regular file whose name contains "invoice". -/
def fileB : DirEntry :=
  { path := "/tmp/t/invoice_feb.txt", fileName := "invoice_feb.txt"
  , fileType := some ftFile, depth := 1 }

/-- The traversal root directory entry (depth 0). -/
def rootDir : DirEntry :=
  { path := "/tmp/t", fileName := "t"
  , fileType := some ftDir, depth := 0 }

/-- Engine options: 2 threads, limit 1, accept-everything matcher,
path collection on. -/
def optsLimitOne : EngineOptions :=
  { config := { threads := 2, max_depth := none, limit := some 1 }
  , matcher := fun _ => true, collect_paths := true, collect_errors := false }

/-- Engine options: 2 threads, no limit, accept-everything matcher,
path collection on. -/
def optsNoLimit : EngineOptions :=
  { config := { threads := 2, max_depth := none, limit := none }
  , matcher := fun _ => true, collect_paths := true, collect_errors := false }

/-- Engine options: 1 thread, no limit, accept-everything matcher,
error collection on. -/
def optsErrCollect : EngineOptions :=
  { config := { threads := 1, max_depth := none, limit := none }
  , matcher := fun _ => true, collect_paths := false, collect_errors := true }

/-- Engine options: limit 2, accept-everything matcher, path collection
on. -/
def optsLimitTwo : EngineOptions :=
  { config := { threads := 4, max_depth := none, limit := some 2 }
  , matcher := fun _ => true, collect_paths := true, collect_errors := false }

/-- The execution in which every item of the stream was processed, in
stream order (always a valid `ConcRun`; it is the one the single-worker
walk without any quit produces). -/
def fullRun (opts : EngineOptions) (items : List (Except IgnoreError DirEntry)) :
    ConcRun opts items :=
  { procd := items, sub := List.Subperm.refl items
  , term := fun _ => List.Perm.refl items }

/-- A source that yields nothing (its root probe falls back to "."). -/
def srcEmpty : SourceM := { walk := fun _ => [] }

/-- A filesystem oracle on which the walker yields no items. -/
def fsEmpty : String → List (Except IgnoreError DirEntry) := fun _ => []

/-- A builder with a source configured and a thread count of 0 (no
workers — an unusable thread count). -/
def builderThreadsZero : SearchBuilder :=
  { source := some srcEmpty, matcher := none, limit := none, threads := 0
  , max_depth := none, collect_paths := false, collect_errors := false }

/-- A builder with no source configured. -/
def builderNoSource : SearchBuilder :=
  { source := none, matcher := none, limit := none, threads := 4
  , max_depth := none, collect_paths := false, collect_errors := false }

-- ---------------------------------------------------------------------------
-- Helper lemmas
-- ---------------------------------------------------------------------------

theorem tally_match_count (s : EngineState) (ft : FileType) :
    (tally s ft).match_count = s.match_count := by
  unfold tally; split <;> try split
  all_goals rfl

theorem tally_paths (s : EngineState) (ft : FileType) :
    (tally s ft).paths = s.paths := by
  unfold tally; split <;> try split
  all_goals rfl

theorem tally_errors (s : EngineState) (ft : FileType) :
    (tally s ft).errors = s.errors := by
  unfold tally; split <;> try split
  all_goals rfl

theorem pushPath_match_count (c : Bool) (s : EngineState) (p : String) :
    (pushPath c s p).match_count = s.match_count := by
  unfold pushPath; split <;> rfl

theorem matchStep_match_count (opts : EngineOptions) (s : EngineState)
    (p : String) :
    ((matchStep opts s p).1).match_count = s.match_count + 1 := by
  dsimp only [matchStep]
  split
  · rfl
  · split <;> simp [pushPath_match_count]

/-- Processing one item adds 1 to the `matches` counter exactly when the
item is a match event. -/
theorem step_match_count (opts : EngineOptions) (s : EngineState)
    (it : Except IgnoreError DirEntry) :
    ((step opts s it).1).match_count =
      s.match_count + (if isMatchEvent opts it then 1 else 0) := by
  cases it with
  | error e =>
      simp only [step, isMatchEvent, if_false]
      split <;> rfl
  | ok d =>
      cases hft : d.fileType with
      | none => simp [step, isMatchEvent, hft]
      | some ft =>
          by_cases hd : d.depth = 0
          · simp [step, isMatchEvent, hft, hd, tally_match_count]
          · by_cases hm : opts.matcher (mkEntry d ft) = true
            · simp [step, isMatchEvent, hft, hd, hm, matchStep_match_count,
                tally_match_count]
            · simp [step, isMatchEvent, hft, hd, hm, tally_match_count]

/-- If the two-guard protocol returns `Quit`, a limit is configured and
the post-increment value reached it. -/
theorem matchStep_quit (opts : EngineOptions) (s : EngineState) (p : String)
    (h : (matchStep opts s p).2 = .Quit) :
    ∃ lim, opts.config.limit = some lim ∧ lim ≤ s.match_count + 1 := by
  cases hl : opts.config.limit with
  | none =>
      exfalso
      unfold matchStep at h
      rw [hl] at h
      simp [overLimit, atLimit] at h
  | some lim =>
      refine ⟨lim, rfl, ?_⟩
      by_cases h1 : s.match_count + 1 > lim
      · omega
      · by_cases h2 : s.match_count + 1 ≥ lim
        · omega
        · exfalso
          unfold matchStep at h
          rw [hl] at h
          simp [overLimit, atLimit, h1, h2] at h

/-- A `Quit` verdict comes only from the match branch, with a configured
limit reached by the post-increment counter value. -/
theorem step_quit (opts : EngineOptions) (s : EngineState)
    (it : Except IgnoreError DirEntry) (h : (step opts s it).2 = .Quit) :
    isMatchEvent opts it = true ∧
      ∃ lim, opts.config.limit = some lim ∧ lim ≤ s.match_count + 1 := by
  cases it with
  | error e =>
      exfalso
      simp [step] at h
  | ok d =>
      cases hft : d.fileType with
      | none => exfalso; simp [step, hft] at h
      | some ft =>
          by_cases hd : d.depth = 0
          · exfalso; simp [step, hft, hd] at h
          · by_cases hm : opts.matcher (mkEntry d ft) = true
            · have h' : (matchStep opts (tally s ft) (mkEntry d ft).path).2 = .Quit := by
                simpa [step, hft, hd, hm] using h
              obtain ⟨lim, hlim, hle⟩ := matchStep_quit _ _ _ h'
              rw [tally_match_count] at hle
              exact ⟨by simp [isMatchEvent, hft, hd, hm], lim, hlim, hle⟩
            · exfalso; simp [step, hft, hd, hm] at h

/-- With no limit configured, every callback invocation returns
`Continue`. -/
theorem step_no_limit_continue (opts : EngineOptions) (s : EngineState)
    (it : Except IgnoreError DirEntry) (h : opts.config.limit = none) :
    (step opts s it).2 = .Continue := by
  cases hv : (step opts s it).2 with
  | Continue => rfl
  | Quit =>
      obtain ⟨_, lim, hlim, _⟩ := step_quit opts s it hv
      rw [h] at hlim
      exact Option.noConfusion hlim

/-- The `matches` counter after a sequence of callback invocations is the
start value plus the number of match events among them. -/
theorem foldl_match_count (opts : EngineOptions)
    (l : List (Except IgnoreError DirEntry)) :
    ∀ s : EngineState,
      (l.foldl (fun s it => (step opts s it).1) s).match_count
        = s.match_count + l.countP (isMatchEvent opts) := by
  induction l with
  | nil => intro s; simp
  | cons it rest ih =>
      intro s
      simp only [List.foldl_cons, List.countP_cons]
      rw [ih, step_match_count]
      by_cases h : isMatchEvent opts it = true
      · simp [h]
        omega
      · simp [h]

/-- With no limit configured, no invocation in any processed sequence
returns `Quit`. -/
theorem anyQuit_no_limit (opts : EngineOptions)
    (h : opts.config.limit = none)
    (l : List (Except IgnoreError DirEntry)) :
    ∀ s : EngineState, anyQuit opts s l = false := by
  induction l with
  | nil => intro s; rfl
  | cons it rest ih =>
      intro s
      have hv := step_no_limit_continue opts s it h
      rcases hstep : step opts s it with ⟨s1, v⟩
      rw [hstep] at hv
      simp only at hv
      subst hv
      simp [anyQuit, hstep, ih]

/-- If some invocation in the processed sequence returned `Quit`, the
configured limit is at most the number of match events processed. -/
theorem anyQuit_bound (opts : EngineOptions) (L : Nat)
    (hl : opts.config.limit = some L)
    (l : List (Except IgnoreError DirEntry)) :
    ∀ s : EngineState, anyQuit opts s l = true →
      L ≤ s.match_count + l.countP (isMatchEvent opts) := by
  induction l with
  | nil => intro s h; simp [anyQuit] at h
  | cons it rest ih =>
      intro s h
      rcases hstep : step opts s it with ⟨s1, v⟩
      simp only [anyQuit, hstep] at h
      rw [Bool.or_eq_true] at h
      rcases h with h | h
      · have hq : (step opts s it).2 = .Quit := by
          rw [hstep]; simpa using h
        obtain ⟨hev, lim, hlim, hle⟩ := step_quit opts s it hq
        rw [hl] at hlim
        obtain rfl : L = lim := Option.some.inj hlim
        simp [List.countP_cons, hev]
        omega
      · have hbound := ih s1 h
        have hs1 : s1.match_count = s.match_count
            + (if isMatchEvent opts it then 1 else 0) := by
          have := step_match_count opts s it
          rw [hstep] at this
          simpa using this
        rw [hs1] at hbound
        simp only [List.countP_cons]
        by_cases hev : isMatchEvent opts it = true
        · simp [hev] at hbound ⊢; omega
        · simp [hev] at hbound ⊢; omega

theorem pushPath_paths_true (s : EngineState) (p : String) :
    (pushPath true s p).paths = s.paths ++ [p] := rfl

theorem pushPath_paths_false (s : EngineState) (p : String) :
    (pushPath false s p).paths = s.paths := rfl

/-- The two-guard protocol preserves the invariant
`paths.length ≤ min match_count limit`: the early guard blocks the append
whenever the post-increment value exceeds the limit. -/
theorem matchStep_paths_inv (opts : EngineOptions) (L : Nat)
    (hl : opts.config.limit = some L) (s : EngineState) (p : String)
    (h : s.paths.length ≤ min s.match_count L) :
    ((matchStep opts s p).1).paths.length
      ≤ min ((matchStep opts s p).1).match_count L := by
  rw [matchStep_match_count]
  unfold matchStep
  rw [hl]
  simp only [overLimit, atLimit]
  by_cases h1 : s.match_count + 1 > L
  · simp [h1]
    omega
  · simp [h1]
    by_cases h2 : s.match_count + 1 ≥ L
    · cases hc : opts.collect_paths with
      | true => simp [h2, hc, pushPath]; omega
      | false => simp [h2, hc, pushPath]; omega
    · cases hc : opts.collect_paths with
      | true => simp [h2, hc, pushPath]; omega
      | false => simp [h2, hc, pushPath]; omega

/-- One callback invocation preserves the path-count invariant. -/
theorem step_paths_inv (opts : EngineOptions) (L : Nat)
    (hl : opts.config.limit = some L) (s : EngineState)
    (it : Except IgnoreError DirEntry)
    (h : s.paths.length ≤ min s.match_count L) :
    ((step opts s it).1).paths.length
      ≤ min ((step opts s it).1).match_count L := by
  cases it with
  | error e =>
      simp only [step]
      split <;> simpa using h
  | ok d =>
      cases hft : d.fileType with
      | none => simpa [step, hft] using h
      | some ft =>
          by_cases hd : d.depth = 0
          · simpa [step, hft, hd, tally_paths, tally_match_count] using h
          · by_cases hm : opts.matcher (mkEntry d ft) = true
            · have h' : (tally s ft).paths.length
                  ≤ min (tally s ft).match_count L := by
                rw [tally_paths, tally_match_count]; exact h
              have := matchStep_paths_inv opts L hl (tally s ft)
                (mkEntry d ft).path h'
              simpa [step, hft, hd, hm] using this
            · simpa [step, hft, hd, hm, tally_paths, tally_match_count] using h

/-- The path-count invariant holds after any processed sequence. -/
theorem foldl_paths_inv (opts : EngineOptions) (L : Nat)
    (hl : opts.config.limit = some L)
    (l : List (Except IgnoreError DirEntry)) :
    ∀ s : EngineState, s.paths.length ≤ min s.match_count L →
      ((l.foldl (fun s it => (step opts s it).1) s)).paths.length
        ≤ min ((l.foldl (fun s it => (step opts s it).1) s)).match_count L := by
  induction l with
  | nil => intro s h; simpa using h
  | cons it rest ih =>
      intro s h
      simp only [List.foldl_cons]
      exact ih _ (step_paths_inv opts L hl s it h)

/-- With no limit configured the single-worker walk never stops early:
it is the plain fold of the callback over the stream. -/
theorem runItems_no_limit (opts : EngineOptions)
    (h : opts.config.limit = none)
    (l : List (Except IgnoreError DirEntry)) :
    ∀ s : EngineState,
      runItems opts s l = l.foldl (fun s it => (step opts s it).1) s := by
  induction l with
  | nil => intro s; rfl
  | cons it rest ih =>
      intro s
      have hv := step_no_limit_continue opts s it h
      rcases hstep : step opts s it with ⟨s1, v⟩
      rw [hstep] at hv
      simp only at hv
      subst hv
      simp [runItems, hstep, ih]

-- ---------------------------------------------------------------------------
-- Claim theorems
-- ---------------------------------------------------------------------------

/-- C1: with a limit `L` configured, in every concurrent execution the
reported `matches` equals `min(true_match_count, L)`: the finalizer clamp
makes the count exact even when the shared atomic counter overshoots `L`,
and the clamp never lowers a raw count that is already at or below `L`. -/
theorem c1_limit_clamp_exact (opts : EngineOptions)
    (items : List (Except IgnoreError DirEntry)) (r : ConcRun opts items)
    (L : Nat) (hl : opts.config.limit = some L) :
    (finalize opts (stepsState opts r.procd)).match_count
        = min (items.countP (isMatchEvent opts)) L
    ∧ (∀ raw, raw ≤ L → clampMatches (some L) raw = raw) := by
  constructor
  · have hK : (stepsState opts r.procd).match_count
        = r.procd.countP (isMatchEvent opts) := by
      simpa [stepsState, initState] using
        foldl_match_count opts r.procd initState
    have hKT : r.procd.countP (isMatchEvent opts)
        ≤ items.countP (isMatchEvent opts) :=
      List.Subperm.countP_le (isMatchEvent opts) r.sub
    by_cases hq : anyQuit opts initState r.procd = true
    · have hLK := anyQuit_bound opts L hl r.procd initState hq
      simp only [initState] at hLK
      simp only [finalize, clampMatches, hl, hK]
      omega
    · have hq' : anyQuit opts initState r.procd = false := by
        revert hq
        cases anyQuit opts initState r.procd <;> simp
      have hTeq : r.procd.countP (isMatchEvent opts)
          = items.countP (isMatchEvent opts) :=
        (r.term hq').countP_eq _
      simp only [finalize, clampMatches, hl, hK, hTeq]
  · intro raw hraw
    simp [clampMatches, Nat.min_eq_left hraw]

/-- Witness for C1: limit 1, two matching files both processed (the
atomic counter overshoots to 2), reported `matches` is exactly
`min(2, 1) = 1`. -/
theorem c1_limit_clamp_exact_witness :
    (finalize optsLimitOne (stepsState optsLimitOne
        (fullRun optsLimitOne [.ok fileA, .ok fileB]).procd)).match_count
      = min ([Except.ok fileA, Except.ok fileB].countP
              (isMatchEvent optsLimitOne)) 1
    ∧ (∀ raw, raw ≤ 1 → clampMatches (some 1) raw = raw) :=
  c1_limit_clamp_exact optsLimitOne [.ok fileA, .ok fileB]
    (fullRun optsLimitOne [.ok fileA, .ok fileB]) 1 rfl

/-- C2: with no limit configured, the reported `matches` equals exactly
the number of entries the predicate accepts — in every concurrent
execution at any thread count (`ConcRun` ranges over all of them), and in
the single-worker walk (`engineRun`). -/
theorem c2_no_limit_exact (opts : EngineOptions)
    (items : List (Except IgnoreError DirEntry)) (r : ConcRun opts items)
    (h : opts.config.limit = none) :
    (finalize opts (stepsState opts r.procd)).match_count
        = items.countP (isMatchEvent opts)
    ∧ (engineRun opts items).match_count
        = items.countP (isMatchEvent opts) := by
  constructor
  · have hq : anyQuit opts initState r.procd = false :=
      anyQuit_no_limit opts h r.procd initState
    have hK : (stepsState opts r.procd).match_count
        = r.procd.countP (isMatchEvent opts) := by
      simpa [stepsState, initState] using
        foldl_match_count opts r.procd initState
    simp only [finalize, clampMatches, h, hK]
    exact (r.term hq).countP_eq _
  · unfold engineRun
    rw [runItems_no_limit opts h items initState]
    simp only [finalize, clampMatches, h]
    simpa [initState] using foldl_match_count opts items initState

/-- Witness for C2: no limit, a matching file plus the root entry —
`matches` equals the match-event count (1) in both the concurrent and
single-worker forms. -/
theorem c2_no_limit_exact_witness :
    (finalize optsNoLimit (stepsState optsNoLimit
        (fullRun optsNoLimit [.ok fileA, .ok rootDir]).procd)).match_count
      = [Except.ok fileA, Except.ok rootDir].countP (isMatchEvent optsNoLimit)
    ∧ (engineRun optsNoLimit [.ok fileA, .ok rootDir]).match_count
      = [Except.ok fileA, Except.ok rootDir].countP (isMatchEvent optsNoLimit) :=
  c2_no_limit_exact optsNoLimit [.ok fileA, .ok rootDir]
    (fullRun optsNoLimit [.ok fileA, .ok rootDir]) rfl

/-- C5: with a limit `L` and path collection enabled, every concurrent
execution records at most `L` paths — a path is appended only when the
worker's unique post-increment value is at most `L` — and the finalizer
passes `paths` through without truncation. -/
theorem c5_paths_at_most_limit (opts : EngineOptions)
    (items : List (Except IgnoreError DirEntry)) (r : ConcRun opts items)
    (L : Nat) (hl : opts.config.limit = some L)
    (_hc : opts.collect_paths = true) :
    ((finalize opts (stepsState opts r.procd)).paths).length ≤ L
    ∧ (∀ s : EngineState, (finalize opts s).paths = s.paths) := by
  constructor
  · have h0 : initState.paths.length ≤ min initState.match_count L := by
      simp [initState]
    have hinv := foldl_paths_inv opts L hl r.procd initState h0
    simp only [finalize, stepsState]
    omega
  · intro s
    rfl

/-- Witness for C5: limit 1, paths collected, two matching files both
processed — only one path is recorded. -/
theorem c5_paths_at_most_limit_witness :
    ((finalize optsLimitOne (stepsState optsLimitOne
        (fullRun optsLimitOne [.ok fileA, .ok fileB]).procd)).paths).length ≤ 1
    ∧ (∀ s : EngineState, (finalize optsLimitOne s).paths = s.paths) :=
  c5_paths_at_most_limit optsLimitOne [.ok fileA, .ok fileB]
    (fullRun optsLimitOne [.ok fileA, .ok fileB]) 1 rfl rfl

/-- C3: on a predicate match the worker increments the counter obtaining
the post-increment value `m = match_count + 1`; with a limit configured,
if `m` exceeds the limit it signals `Quit` before the path is appended
(the state still has the old `paths`); otherwise the path is appended
when collection is enabled and the verdict is `Quit` iff `m` meets or
exceeds the limit; with no limit configured the verdict is always
`Continue`. -/
theorem c3_two_guard_protocol (opts : EngineOptions) (s : EngineState)
    (d : DirEntry) (ft : FileType) (hft : d.fileType = some ft)
    (hd : d.depth ≠ 0) (hm : opts.matcher (mkEntry d ft) = true) :
    (∀ lim, opts.config.limit = some lim → s.match_count + 1 > lim →
        step opts s (.ok d)
          = ({ tally s ft with match_count := s.match_count + 1 }, .Quit))
    ∧ (∀ lim, opts.config.limit = some lim → s.match_count + 1 ≤ lim →
        step opts s (.ok d)
          = (pushPath opts.collect_paths
                { tally s ft with match_count := s.match_count + 1 }
                (mkEntry d ft).path,
             if s.match_count + 1 ≥ lim then .Quit else .Continue))
    ∧ (opts.config.limit = none →
        step opts s (.ok d)
          = (pushPath opts.collect_paths
                { tally s ft with match_count := s.match_count + 1 }
                (mkEntry d ft).path,
             .Continue)) := by
  have hstep : step opts s (.ok d)
      = matchStep opts (tally s ft) (mkEntry d ft).path := by
    simp [step, hft, hd, hm]
  have htc := tally_match_count s ft
  refine ⟨?_, ?_, ?_⟩
  · intro lim hl hgt
    rw [hstep]
    unfold matchStep
    rw [htc, hl]
    simp [overLimit, hgt]
  · intro lim hl hle
    rw [hstep]
    unfold matchStep
    rw [htc, hl]
    have hngt : ¬ (s.match_count + 1 > lim) := by omega
    by_cases h2 : s.match_count + 1 ≥ lim
    · simp [overLimit, atLimit, hngt, h2]
    · simp [overLimit, atLimit, hngt, h2]
  · intro hl
    rw [hstep]
    unfold matchStep
    rw [htc, hl]
    simp [overLimit, atLimit]

/-- Witness for C3: limit 2, accept-all matcher, fresh state, a matching
depth-1 file. -/
theorem c3_two_guard_protocol_witness :
    (∀ lim, optsLimitTwo.config.limit = some lim →
        initState.match_count + 1 > lim →
        step optsLimitTwo initState (.ok fileA)
          = ({ tally initState ftFile with
                match_count := initState.match_count + 1 }, .Quit))
    ∧ (∀ lim, optsLimitTwo.config.limit = some lim →
        initState.match_count + 1 ≤ lim →
        step optsLimitTwo initState (.ok fileA)
          = (pushPath optsLimitTwo.collect_paths
                { tally initState ftFile with
                    match_count := initState.match_count + 1 }
                (mkEntry fileA ftFile).path,
             if initState.match_count + 1 ≥ lim then .Quit else .Continue))
    ∧ (optsLimitTwo.config.limit = none →
        step optsLimitTwo initState (.ok fileA)
          = (pushPath optsLimitTwo.collect_paths
                { tally initState ftFile with
                    match_count := initState.match_count + 1 }
                (mkEntry fileA ftFile).path,
             .Continue)) :=
  c3_two_guard_protocol optsLimitTwo initState fileA ftFile rfl
    (by decide) rfl

/-- C10: a depth-0 (root) entry is tallied into the `files`/`dirs`
counters by its kind but the callback returns `Continue` without ever
consulting the matcher: `matches` and `paths` are unchanged for every
matcher, including one that would accept it. -/
theorem c10_root_tallied_never_matched (opts : EngineOptions)
    (s : EngineState) (d : DirEntry) (ft : FileType)
    (hft : d.fileType = some ft) (hd : d.depth = 0) :
    step opts s (.ok d) = (tally s ft, .Continue)
    ∧ (tally s ft).match_count = s.match_count
    ∧ (tally s ft).paths = s.paths
    ∧ (ft.isDir = true → (tally s ft).dirs = s.dirs + 1)
    ∧ (ft.isDir = false → ft.isFile = true →
        (tally s ft).files = s.files + 1) := by
  refine ⟨by simp [step, hft, hd], tally_match_count s ft,
    tally_paths s ft, ?_, ?_⟩
  · intro h
    simp [tally, h]
  · intro h1 h2
    simp [tally, h1, h2]

/-- Witness for C10: the root directory entry under an accept-everything
matcher — tallied as a directory, `Continue`, no match, no path. -/
theorem c10_root_tallied_never_matched_witness :
    step optsNoLimit initState (.ok rootDir) = (tally initState ftDir, .Continue)
    ∧ (tally initState ftDir).match_count = initState.match_count
    ∧ (tally initState ftDir).paths = initState.paths
    ∧ (ftDir.isDir = true → (tally initState ftDir).dirs = initState.dirs + 1)
    ∧ (ftDir.isDir = false → ftDir.isFile = true →
        (tally initState ftDir).files = initState.files + 1) :=
  c10_root_tallied_never_matched optsNoLimit initState rootDir ftDir rfl rfl

/-- C4 counterexample: a fatal (non-recoverable) producer error does not
abort the run. With error collection enabled, the engine receives a fatal
`Source` error followed by a matching file and still completes, counting
the later match and returning a `Results` that contains the fatal error
in `errors` — instead of aborting immediately and discarding partial
results as the claim states. -/
theorem c4_fatal_error_does_not_abort :
    ParexError.is_recoverable (map_ignore_error (.Other "producer failed"))
        = false
    ∧ engineRun optsErrCollect [.error (.Other "producer failed"), .ok fileA]
        = { match_count := 1, paths := [], files := 1, dirs := 0
          , errors := [ParexError.Source "producer failed"] } :=
  ⟨rfl, rfl⟩

/-- C4 amended: every error item from the producer is handled uniformly —
when error collection is enabled the mapped error is appended to `errors`
(recoverable or fatal alike), otherwise it is dropped; in both cases the
verdict is `Continue`: no producer-reported error aborts the run or
discards partial results. -/
theorem c4_error_items_always_continue (opts : EngineOptions)
    (s : EngineState) (e : IgnoreError) :
    step opts s (.error e)
      = ( if opts.collect_errors then
            { s with errors := s.errors ++ [map_ignore_error e] }
          else s
        , .Continue) :=
  rfl

/-- C6 counterexample: a thread count of 0 (no workers — an unusable
thread count) is not rejected: with a source configured,
`SearchBuilder::run` returns `Ok` and proceeds to traversal instead of
returning an error. -/
theorem c6_thread_count_not_validated :
    SearchBuilder.run builderThreadsZero fsEmpty
      = .ok { match_count := 0, paths := [], files := 0, dirs := 0
            , errors := [] } :=
  rfl

/-- C6 amended: with no source configured, `run` fails with the
invalid-source error before any traversal (the filesystem is never
consulted — the equation holds for every `fs`); thread counts are never
validated. -/
theorem c6_no_source_fails (b : SearchBuilder)
    (fs : String → List (Except IgnoreError DirEntry))
    (h : b.source = none) :
    SearchBuilder.run b fs = .error (.InvalidSource "no source provided") := by
  unfold SearchBuilder.run
  rw [h]

/-- Witness for C6 amended: the concrete no-source builder. -/
theorem c6_no_source_fails_witness :
    SearchBuilder.run builderNoSource fsEmpty
      = .error (.InvalidSource "no source provided") :=
  c6_no_source_fails builderNoSource fsEmpty rfl

/-- C8: `matching(p)` installs the substring matcher whose stored pattern
is `p` lowercased; it accepts an entry iff the lowercase form of the
entry's name contains the lowercase form of `p` as a substring;
`AllMatcher` accepts every entry; and a run with no matcher configured
behaves identically to one configured with `AllMatcher`. -/
theorem c8_builtin_matchers (b : SearchBuilder) (p : String) (e : Entry) :
    (SearchBuilder.matching b p).matcher
        = some (SubstringMatcher.is_match { pattern := p.toLower })
    ∧ (SubstringMatcher.is_match { pattern := p.toLower } e = true
        ↔ List.IsInfix p.toLower.toList e.name.toLower.toList)
    ∧ AllMatcher.is_match e = true
    ∧ (∀ (src : SourceM) (lim : Option Nat) (thr : Nat) (md : Option Nat)
          (cp ce : Bool) (fs : String → List (Except IgnoreError DirEntry)),
        SearchBuilder.run
            { source := some src, matcher := none, limit := lim
            , threads := thr, max_depth := md, collect_paths := cp
            , collect_errors := ce } fs
          = SearchBuilder.run
            { source := some src, matcher := some AllMatcher.is_match
            , limit := lim, threads := thr, max_depth := md
            , collect_paths := cp, collect_errors := ce } fs) := by
  refine ⟨rfl, ?_, rfl, ?_⟩
  · simp [SubstringMatcher.is_match, strContains]
  · intro src lim thr md cp ce fs
    rfl

/-- C9 (modelling the evident intent of `source_root`, whose source text
does not type-check — see the doc comment on `source_root`): the root
probe walks the source with threads 1, max_depth 0, limit 1 and reads
only the first yielded item (entry path, or "." when nothing is
yielded), and `run` depends on the source only through `source_root`:
traversal is the engine's own walk (`fs`) over that extracted root, so
the source's entries are never classified, matched, counted or
error-collected. -/
theorem c9_source_probe_and_independence (b : SearchBuilder) (src : SourceM)
    (fs : String → List (Except IgnoreError DirEntry)) :
    source_root src
      = (match (src.walk
            { threads := 1, max_depth := some 0, limit := some 1 }).head? with
          | some (.ok e) => e.path
          | some (.error _) => "."
          | none => ".")
    ∧ SearchBuilder.run { b with source := some src } fs
      = .ok (engineRun
          { config := { threads := b.threads, max_depth := b.max_depth
                      , limit := b.limit }
          , matcher := resolveMatcher { b with source := some src }
          , collect_paths := b.collect_paths
          , collect_errors := b.collect_errors }
          (fs (source_root src))) :=
  ⟨rfl, rfl⟩
